import Mathlib

/-!
Verification of the Hybrid Knowledge Retrieval Engine of the `ai_gaming_assistant`
repository (files `src/rpgagents/tools/game_search_tool.py`,
`src/rpgagents/tools/web_search_tool.py`, and the provenance selection in
`src/rpgagents/main.py`).

Shallow embedding conventions:
* Python strings are Lean `String`s; character-level operations are carried out on
  `String.data` (`List Char`), and `str.lower` is modelled as ASCII lower-casing
  (the only case relevant to the code's inputs).
* `str(int)` is modelled by `natStr` (decimal digits, fuel-based structural recursion).
* Similarity distances returned by ChromaDB are modelled as rationals `ℚ`; the code's
  float comparisons against the literals `0.45` and `0.1` are modelled as exact
  rational comparisons.
* External collaborators (the ChromaDB similarity query, the two web-search backends,
  page fetching and HTML extraction, and the langchain text splitter) are parameters
  (oracles) of the embedded functions; the ChromaDB collection bookkeeping itself
  (list/get/get_or_create/add) is modelled explicitly as a pure store.
-/

namespace RpgAssist

/-! ## Character and string primitives -/

/-- ASCII lower-casing of one character, modelling how Python's `str.lower`
acts on the ASCII range. -/
def lowerChar (c : Char) : Char :=
  if 65 ≤ c.toNat ∧ c.toNat ≤ 90 then Char.ofNat (c.toNat + 32) else c

theorem toNat_ofNat_add32 (n : Nat) (h1 : 65 ≤ n) (h2 : n ≤ 90) :
    (Char.ofNat (n + 32)).toNat = n + 32 := by
  interval_cases n <;> decide

theorem lowerChar_idem (c : Char) : lowerChar (lowerChar c) = lowerChar c := by
  by_cases h : 65 ≤ c.toNat ∧ c.toNat ≤ 90
  · have h2 : (lowerChar c).toNat = c.toNat + 32 := by
      rw [lowerChar, if_pos h, toNat_ofNat_add32 c.toNat h.1 h.2]
    have h3 : ¬(65 ≤ (lowerChar c).toNat ∧ (lowerChar c).toNat ≤ 90) := by
      rw [h2]; omega
    show (if 65 ≤ (lowerChar c).toNat ∧ (lowerChar c).toNat ≤ 90 then
        Char.ofNat ((lowerChar c).toNat + 32) else lowerChar c) = lowerChar c
    rw [if_neg h3]
  · have h1 : lowerChar c = c := by rw [lowerChar, if_neg h]
    rw [h1, h1]

/-- Python `s.lower()` (ASCII model). -/
def pyLower (s : String) : String := ⟨s.data.map lowerChar⟩

/-- Python `s.replace(old, new)` for a single-character pattern and replacement. -/
def replaceChar (old new : Char) (s : String) : String :=
  ⟨s.data.map (fun c => if c = old then new else c)⟩

/-- Python `pat in s` test on character lists: `isPrefixOfC pat s` is the
`s.startswith(pat)` check. -/
def isPrefixOfC : List Char → List Char → Bool
  | [], _ => true
  | _ :: _, [] => false
  | a :: as, b :: bs => a = b && isPrefixOfC as bs

/-- Python substring test `pat in s` on character lists. -/
def isInfixOfC (pat : List Char) : List Char → Bool
  | [] => isPrefixOfC pat []
  | c :: rest => isPrefixOfC pat (c :: rest) || isInfixOfC pat rest

/-- Python substring operator `sub in s` on strings. -/
def containsSub (sub s : String) : Bool := isInfixOfC sub.data s.data

/-- Python `s.startswith(pre)`. -/
def startsWith (pre s : String) : Bool := isPrefixOfC pre.data s.data

/-- Python `s.replace(pat, rep)` for a multi-character pattern
(leftmost non-overlapping occurrences), fuel-based so that it reduces. -/
def replaceSubAux (pat rep : List Char) : Nat → List Char → List Char
  | 0, s => s
  | _ + 1, [] => []
  | fuel + 1, c :: rest =>
    if isPrefixOfC pat (c :: rest) then
      rep ++ replaceSubAux pat rep fuel (List.drop pat.length (c :: rest))
    else
      c :: replaceSubAux pat rep fuel rest

def replaceSub (pat rep s : String) : String :=
  ⟨replaceSubAux pat.data rep.data s.data.length s.data⟩

/-! ## Decimal rendering of naturals (Python `str(int)`) -/

def digitCh : Nat → Char
  | 0 => '0' | 1 => '1' | 2 => '2' | 3 => '3' | 4 => '4'
  | 5 => '5' | 6 => '6' | 7 => '7' | 8 => '8' | 9 => '9'
  | _ => '*'

theorem digitCh_toNat (d : Nat) (h : d < 10) : (digitCh d).toNat = 48 + d := by
  interval_cases d <;> decide

theorem digitCh_ne_underscore (d : Nat) (h : d < 10) : digitCh d ≠ '_' := by
  interval_cases d <;> decide

def natStrCAux : Nat → Nat → List Char
  | 0, _ => []
  | fuel + 1, n =>
    if n < 10 then [digitCh n] else natStrCAux fuel (n / 10) ++ [digitCh (n % 10)]

/-- Decimal digit list of `n`, mirroring Python's `str(n)` for naturals. -/
def natStrC (n : Nat) : List Char := natStrCAux (n + 1) n

def natStr (n : Nat) : String := ⟨natStrC n⟩

def decodeStep (a : Nat) (c : Char) : Nat := 10 * a + (c.toNat - 48)

theorem decode_natStrCAux (fuel : Nat) : ∀ n a, n < fuel →
    List.foldl decodeStep a (natStrCAux fuel n) =
      a * 10 ^ (natStrCAux fuel n).length + n := by
  induction fuel with
  | zero => intro n a h; omega
  | succ fuel ih =>
    intro n a h
    by_cases h10 : n < 10
    · simp only [natStrCAux, if_pos h10, List.foldl_cons, List.foldl_nil, List.length_cons,
        List.length_nil, pow_one, decodeStep, digitCh_toNat n h10, Nat.zero_add]
      omega
    · have hdiv : n / 10 < fuel := by
        have := Nat.div_lt_self (by omega : 0 < n) (by omega : (1:Nat) < 10)
        omega
      simp only [natStrCAux, if_neg h10, List.foldl_append, List.foldl_cons, List.foldl_nil,
        List.length_append, List.length_cons, List.length_nil, Nat.zero_add]
      rw [ih (n / 10) a hdiv]
      have hm : (digitCh (n % 10)).toNat = 48 + n % 10 :=
        digitCh_toNat _ (Nat.mod_lt _ (by omega))
      simp only [decodeStep, hm]
      have hpow : (10:ℕ) ^ ((natStrCAux fuel (n / 10)).length + 1) =
          10 ^ (natStrCAux fuel (n / 10)).length * 10 := pow_succ 10 _
      rw [hpow]
      have h2 : a * (10 ^ (natStrCAux fuel (n / 10)).length * 10) =
          10 * (a * 10 ^ (natStrCAux fuel (n / 10)).length) := by ring
      rw [h2]
      omega

theorem natStrC_inj : Function.Injective natStrC := by
  intro m n h
  have hm := decode_natStrCAux (m + 1) m 0 (by omega)
  have hn := decode_natStrCAux (n + 1) n 0 (by omega)
  simp only [natStrC] at h
  rw [h] at hm
  omega

theorem natStrCAux_no_underscore (fuel : Nat) : ∀ n, '_' ∉ natStrCAux fuel n := by
  induction fuel with
  | zero => intro n; simp [natStrCAux]
  | succ fuel ih =>
    intro n
    by_cases h10 : n < 10
    · simp only [natStrCAux, if_pos h10, List.mem_singleton]
      exact fun hc => digitCh_ne_underscore n h10 hc.symm
    · simp only [natStrCAux, if_neg h10, List.mem_append, List.mem_singleton]
      rintro (hc | hc)
      · exact ih (n / 10) hc
      · exact digitCh_ne_underscore (n % 10) (Nat.mod_lt _ (by omega)) hc.symm

theorem natStrC_no_underscore (n : Nat) : '_' ∉ natStrC n :=
  natStrCAux_no_underscore _ n

/-! ## Game-name normalization (game_search_tool.py, lines 48-50 and 136-137)

`game_id.lower().replace(" ", "_").replace("-", "_")` -/

def normalize (s : String) : String :=
  replaceChar '-' '_' (replaceChar ' ' '_' (pyLower s))

/-- Pointwise action of `normalize` on one character. -/
def normCh (c : Char) : Char :=
  (fun c => if c = '-' then '_' else c) ((fun c => if c = ' ' then '_' else c) (lowerChar c))

theorem normalize_eq_map (s : String) : normalize s = ⟨s.data.map normCh⟩ := by
  simp only [normalize, replaceChar, pyLower, List.map_map]
  rfl

theorem normCh_idem (c : Char) : normCh (normCh c) = normCh c := by
  have hu : lowerChar '_' = '_' := by decide
  by_cases hsp : lowerChar c = ' '
  · simp [normCh, hsp, hu]
  · by_cases hhy : lowerChar c = '-'
    · simp [normCh, hsp, hhy, hu]
    · simp only [normCh, if_neg hhy, if_neg hsp, lowerChar_idem c, if_neg hsp, if_neg hhy]

theorem string_ext {s t : String} (h : s.data = t.data) : s = t := by
  cases s; cases t; exact congrArg String.mk h

theorem normalize_data (s : String) : (normalize s).data = s.data.map normCh := by
  rw [normalize_eq_map]

theorem map_normCh_idem (l : List Char) : (l.map normCh).map normCh = l.map normCh := by
  induction l with
  | nil => rfl
  | cons c t ih => simp only [List.map_cons, normCh_idem c, ih]

theorem normalize_idem (s : String) : normalize (normalize s) = normalize s := by
  apply string_ext
  rw [normalize_data, normalize_data]
  exact map_normCh_idem s.data

/-! ## Language filter (web_search_tool.py, lines 29-30 and 61-70) -/

/-- Character class of the `NON_ENGLISH_CHARS` regex: CJK, Hiragana, Katakana,
Hangul and Cyrillic ranges. -/
def NON_ENGLISH_CHARS (c : Char) : Bool :=
  (0x4e00 ≤ c.toNat && c.toNat ≤ 0x9fff) ||
  (0x3040 ≤ c.toNat && c.toNat ≤ 0x309f) ||
  (0x30a0 ≤ c.toNat && c.toNat ≤ 0x30ff) ||
  (0xac00 ≤ c.toNat && c.toNat ≤ 0xd7af) ||
  (0x400 ≤ c.toNat && c.toNat ≤ 0x4ff)

/-- Model of `WebSearchTool._is_english_content`.  The float test
`(count / len) > 0.1` is modelled as the exact rational test `10 * count > len`. -/
def is_english_content (text : String) : Bool :=
  if text = "" then false
  else
    let non_english_count := (text.data.filter NON_ENGLISH_CHARS).length
    if 0 < text.length ∧ 10 * non_english_count > text.length then false else true

theorem string_ne_empty_data {s : String} (h : s ≠ "") : s.data ≠ [] := by
  intro hd
  exact h (by cases s; simpa using congrArg String.mk hd)

/-- Claim C8: the language filter rejects empty text; for non-empty text it rejects
exactly when the characters in the non-Latin ranges exceed 10% of the length; and it
accepts every non-empty pure-ASCII text. -/
theorem is_english_content_spec :
    is_english_content "" = false ∧
    (∀ s : String, s ≠ "" →
      (is_english_content s = false ↔
        10 * (s.data.filter NON_ENGLISH_CHARS).length > s.length)) ∧
    (∀ s : String, s ≠ "" → (∀ c ∈ s.data, c.toNat < 128) →
      is_english_content s = true) := by
  refine ⟨rfl, ?_, ?_⟩
  · intro s hs
    have hlen : 0 < s.length := List.length_pos.mpr (string_ne_empty_data hs)
    rw [is_english_content, if_neg hs]
    by_cases hc : 10 * (s.data.filter NON_ENGLISH_CHARS).length > s.length
    · simp [hlen, hc]
    · simp [hc]
  · intro s hs hascii
    have hlen : 0 < s.length := List.length_pos.mpr (string_ne_empty_data hs)
    have hfil : s.data.filter NON_ENGLISH_CHARS = [] := by
      rw [List.filter_eq_nil_iff]
      intro c hc
      have := hascii c hc
      simp only [NON_ENGLISH_CHARS, Bool.or_eq_true, Bool.and_eq_true, decide_eq_true_eq]
      omega
    rw [is_english_content, if_neg hs]
    simp [hfil]

/-- Witness for C8 at concrete inputs: Japanese text is rejected, ASCII text accepted. -/
theorem is_english_content_spec_witness :
    is_english_content "日本語テキスト" = false ∧ is_english_content "abc" = true := by
  constructor
  · exact (is_english_content_spec.2.1 "日本語テキスト" (by decide)).mpr (by decide)
  · exact is_english_content_spec.2.2 "abc" (by decide) (by decide)

/-- Claim C7: normalization is idempotent, and case/separator-insensitive on the
spec's examples. -/
theorem normalize_spec :
    (∀ s : String, normalize (normalize s) = normalize s) ∧
    normalize "Hollow Knight" = normalize "hollow-knight" ∧
    normalize "hollow-knight" = normalize "hollow_knight" := by
  refine ⟨normalize_idem, ?_, ?_⟩ <;> decide

/-! ## Web search aggregator (web_search_tool.py) -/

def ENGLISH_WIKI_DOMAINS : List String :=
  ["fandom.com", "fextralife.com", "ign.com", "gamespot.com",
   "gamefaqs.gamespot.com", "polygon.com", "eurogamer.net",
   "pcgamer.com", "rockpapershotgun.com", "gamesradar.com"]

def BLOCKED_DOMAINS : List String :=
  ["baidu.com", "zhihu.com", "bilibili.com", "tieba.baidu.com",
   "jingyan.baidu.com", "weibo.com", "163.com", "qq.com",
   "tianya.cn", "sohu.com", "sina.com", "douban.com", "csdn.net",
   "jianshu.com", "toutiao.com", "youku.com", "iqiyi.com",
   "acfun.cn", "huya.com", "douyu.com", "taobao.com", "tmall.com",
   "jd.com", "xiaohongshu.com", "meituan.com", "dianping.com"]

/-- Model of `WebSearchTool._is_english_site`. -/
def is_english_site (url : String) : Bool :=
  let url_lower := pyLower url
  if BLOCKED_DOMAINS.any (fun b => containsSub b url_lower) then false
  else ENGLISH_WIKI_DOMAINS.any (fun d => containsSub d url_lower)

/-- Blocked-domain test `any(blocked in url.lower() for blocked in BLOCKED_DOMAINS)`. -/
def isBlockedUrl (url : String) : Bool :=
  BLOCKED_DOMAINS.any (fun b => containsSub b (pyLower url))

/-- Raw search result `dict` with keys title/href/body. -/
structure SR where
  title : String
  href : String
  body : String
deriving DecidableEq

/-- Acquired document `dict` with keys title/href/content (return type of `search`). -/
structure WebDoc where
  title : String
  href : String
  content : String
deriving DecidableEq

/-- Backend invocations made by `search`; backend A is Serper, backend B is DuckDuckGo. -/
inductive Call where
  | serper (q : String)
  | ddg (q : String)
deriving DecidableEq

/-- Title/body English filter used in each branch of the query loop:
`self._is_english_content(r.get('title', '')) and self._is_english_content(r.get('body', ''))`. -/
def englishTB (r : SR) : Bool :=
  is_english_content r.title && is_english_content r.body

/-- Trusted partition of a backend's results after English filtering. -/
def trustedOf (rs : List SR) : List SR :=
  (rs.filter englishTB).filter (fun r => is_english_site r.href)

/-- Non-trusted, non-blocked partition of a backend's results after English filtering. -/
def otherOf (rs : List SR) : List SR :=
  (rs.filter englishTB).filter (fun r => !is_english_site r.href && !isBlockedUrl r.href)

/-- DuckDuckGo half of one iteration of the query loop (web_search_tool.py,
lines 308-318).  `restRes` is the outcome of the remaining iterations; it is used
only when this iteration does not break. -/
def ddgStep (ddgFn : String → List SR) (sq : String) (acc : List SR)
    (restRes : List SR × List Call) : List SR × List Call :=
  let dres := ddgFn sq
  if dres = [] then
    (acc ++ restRes.1, Call.serper sq :: Call.ddg sq :: restRes.2)
  else
    let acc2 := acc ++ trustedOf dres ++ (otherOf dres).take 2
    if trustedOf dres ≠ [] then (acc2, [Call.serper sq, Call.ddg sq])
    else (acc2 ++ restRes.1, Call.serper sq :: Call.ddg sq :: restRes.2)

/-- Query loop of `WebSearchTool.search` (web_search_tool.py, lines 293-318),
accumulating results and logging which backend was consulted for which query. -/
def queryLoop (serperFn ddgFn : String → List SR) : List String → List SR × List Call
  | [] => ([], [])
  | sq :: rest =>
    let sres := serperFn sq
    if sres = [] then
      ddgStep ddgFn sq [] (queryLoop serperFn ddgFn rest)
    else if trustedOf sres ≠ [] then
      (trustedOf sres ++ (otherOf sres).take 2, [Call.serper sq])
    else
      ddgStep ddgFn sq (trustedOf sres ++ (otherOf sres).take 2)
        (queryLoop serperFn ddgFn rest)

/-- URL deduplication preserving first-seen order (lines 332-337). -/
def dedupByHref (seen : List String) : List SR → List SR
  | [] => []
  | r :: rest =>
    if r.href ∈ seen then dedupByHref seen rest
    else r :: dedupByHref (r.href :: seen) rest

/-- Outcome of `requests.get` plus `_extract_wiki_content` for one URL:
either no usable response (exception or non-200 status), or a 200 response whose
extracted content is the given string. -/
inductive FetchOutcome where
  | noFetch
  | fetched (extracted : String)

/-- Final acceptance check of the fetch loop (line 370):
`if len(content) > 50 and self._is_english_content(content)`. -/
def finalize (r : SR) (content : String) : Option WebDoc :=
  if 50 < content.length ∧ is_english_content content = true then
    some ⟨r.title, r.href, content⟩
  else none

/-- Processing of one deduplicated result in the fetch loop (lines 340-375);
`none` models `continue`. -/
def processResult (fetchFn : String → FetchOutcome) (r : SR) : Option WebDoc :=
  match fetchFn r.href with
  | .noFetch => finalize r r.body
  | .fetched extracted =>
    if 200 < extracted.length ∧ is_english_content extracted = true then
      finalize r extracted
    else if is_english_content extracted = false then
      if is_english_content r.body = false then none
      else finalize r r.body
    else finalize r r.body

/-- Fetch-and-format stage over the first 3 unique results (lines 331-377). -/
def fetchStage (fetchFn : String → FetchOutcome) (rs : List SR) : List WebDoc :=
  ((dedupByHref [] rs).take 3).filterMap (processResult fetchFn)

def searchFinish (fetchFn : String → FetchOutcome) (p : List SR × List Call) :
    List WebDoc × List Call :=
  if p.1 = [] then ([], p.2) else (fetchStage fetchFn p.1, p.2)

/-- Model of `WebSearchTool.search` (lines 267-381): build the prioritized queries, run the
query loop, fall back to one broad DuckDuckGo query, then deduplicate, fetch and
filter.  Returns the acquired documents together with the backend-call log. -/
def search (serperFn ddgFn : String → List SR) (fetchFn : String → FetchOutcome)
    (game_name query : String) : List WebDoc × List Call :=
  let game_lower : String := ⟨(pyLower game_name).data.filter (fun c => c ≠ ' ')⟩
  let base : List String :=
    [game_name ++ " " ++ query ++ " wiki",
     game_name ++ " " ++ query ++ " fandom",
     game_name ++ " " ++ query ++ " guide walkthrough"]
  let search_queries : List String :=
    if containsSub "hollow" game_lower then
      ("site:hollowknight.fandom.com " ++ query) :: base
    else if containsSub "elden" game_lower then
      ("site:eldenring.wiki.fextralife.com " ++ query) :: base
    else if containsSub "dark souls" game_lower || containsSub "darksouls" game_lower then
      ("site:darksouls.fandom.com " ++ query) :: base
    else base
  let lr := queryLoop serperFn ddgFn search_queries
  let broadQuery := game_name ++ " " ++ query ++ " english wiki guide"
  let lr2 :=
    if lr.1 = [] then
      ((if ddgFn broadQuery = [] then []
        else ((ddgFn broadQuery).filter englishTB).take 5),
       lr.2 ++ [Call.ddg broadQuery])
    else lr
  searchFinish fetchFn lr2

/-! ## Claims about the aggregator -/

theorem mem_ddgStep_log {ddgFn : String → List SR} {sq q : String} {acc : List SR}
    {restRes : List SR × List Call}
    (h : Call.ddg q ∈ (ddgStep ddgFn sq acc restRes).2) :
    q = sq ∨ Call.ddg q ∈ restRes.2 := by
  rw [ddgStep] at h
  split at h
  · simp only [List.mem_cons] at h
    rcases h with h | h | h
    · exact Call.noConfusion h
    · injection h with h'; exact Or.inl h'
    · exact Or.inr h
  · split at h
    · simp only [List.mem_cons, List.not_mem_nil] at h
      rcases h with h | h | h
      · exact Call.noConfusion h
      · injection h with h'; exact Or.inl h'
      · exact h.elim
    · simp only [List.mem_cons] at h
      rcases h with h | h | h
      · exact Call.noConfusion h
      · injection h with h'; exact Or.inl h'
      · exact Or.inr h

/-- Claim C4 (amended): within the query loop, DuckDuckGo is consulted for a query
only when Serper's results for that very query contained no trusted
(English-gaming-wiki) result after filtering — in particular Serper may well have
yielded results. -/
theorem ddg_only_without_serper_trusted (serperFn ddgFn : String → List SR)
    (qs : List String) (q : String)
    (h : Call.ddg q ∈ (queryLoop serperFn ddgFn qs).2) :
    trustedOf (serperFn q) = [] := by
  induction qs with
  | nil => simp [queryLoop] at h
  | cons sq rest ih =>
    rw [queryLoop] at h
    by_cases hs : serperFn sq = []
    · rw [if_pos hs] at h
      rcases mem_ddgStep_log h with heq | hrest
      · rw [heq, hs]; rfl
      · exact ih hrest
    · rw [if_neg hs] at h
      by_cases ht : trustedOf (serperFn sq) ≠ []
      · rw [if_pos ht] at h
        simp only [List.mem_singleton] at h
        exact Call.noConfusion h
      · rw [if_neg ht] at h
        rcases mem_ddgStep_log h with heq | hrest
        · rw [heq]; exact not_ne_iff.mp ht
        · exact ih hrest

/-- Serper backend stub returning one English result from a non-trusted,
non-blocked domain. -/
def serperOneOther : String → List SR :=
  fun _ => [⟨"Guide page", "http://example.com/page", "some plain text"⟩]

/-- DuckDuckGo backend stub returning nothing. -/
def ddgNone : String → List SR := fun _ => []

/-- Counterexample to claim C4 as stated: Serper yields a (non-trusted) result for
the query, yet DuckDuckGo is still consulted for the same query. -/
theorem serper_nonempty_yet_ddg_consulted :
    serperOneOther "q1" ≠ [] ∧
    Call.ddg "q1" ∈ (queryLoop serperOneOther ddgNone ["q1"]).2 := by
  constructor
  · decide
  · decide

/-- Witness for the amended C4: applying the theorem at the concrete run above. -/
theorem ddg_only_without_serper_trusted_witness :
    trustedOf (serperOneOther "q1") = [] :=
  ddg_only_without_serper_trusted serperOneOther ddgNone ["q1"] "q1" (by decide)

theorem finalize_some {r : SR} {content : String} {d : WebDoc}
    (h : finalize r content = some d) :
    50 < d.content.length ∧ is_english_content d.content = true := by
  rw [finalize] at h
  split at h
  · cases h
    exact ‹50 < content.length ∧ _›
  · cases h

theorem processResult_some {fetchFn : String → FetchOutcome} {r : SR} {d : WebDoc}
    (h : processResult fetchFn r = some d) :
    50 < d.content.length ∧ is_english_content d.content = true := by
  rw [processResult] at h
  split at h
  · exact finalize_some h
  · split at h
    · exact finalize_some h
    · split at h
      · split at h
        · cases h
        · exact finalize_some h
      · exact finalize_some h

theorem fetchStage_spec (fetchFn : String → FetchOutcome) (rs : List SR) :
    (fetchStage fetchFn rs).length ≤ 3 ∧
    ∀ d ∈ fetchStage fetchFn rs,
      50 < d.content.length ∧ is_english_content d.content = true := by
  constructor
  · calc (fetchStage fetchFn rs).length
        ≤ ((dedupByHref [] rs).take 3).length := List.length_filterMap_le _ _
      _ ≤ 3 := by rw [List.length_take]; exact Nat.min_le_left _ _
  · intro d hd
    obtain ⟨r, _, hr⟩ := List.mem_filterMap.mp hd
    exact processResult_some hr

theorem searchFinish_spec (fetchFn : String → FetchOutcome) (p : List SR × List Call) :
    (searchFinish fetchFn p).1.length ≤ 3 ∧
    ∀ d ∈ (searchFinish fetchFn p).1,
      50 < d.content.length ∧ is_english_content d.content = true := by
  rw [searchFinish]
  split
  · exact ⟨by simp, by simp⟩
  · exact fetchStage_spec fetchFn p.1

/-- Claim C5: for every input and backend behaviour, `search` returns at most 3
documents, and every returned document has content longer than 50 characters that
passes the language filter. -/
theorem search_cap_and_quality (serperFn ddgFn : String → List SR)
    (fetchFn : String → FetchOutcome) (game_name query : String) :
    (search serperFn ddgFn fetchFn game_name query).1.length ≤ 3 ∧
    ∀ d ∈ (search serperFn ddgFn fetchFn game_name query).1,
      50 < d.content.length ∧ is_english_content d.content = true :=
  searchFinish_spec fetchFn _

/-- Fetch stub: every request fails, so content falls back to the snippet. -/
def fetchNone : String → FetchOutcome := fun _ => .noFetch

/-- Serper backend stub returning one English result from a trusted wiki domain
with a long snippet. -/
def serperTrustedOne : String → List SR :=
  fun _ => [⟨"Void Heart",
    "https://hollowknight.fandom.com/wiki/Void_Heart",
    "The Void Heart is a charm obtained in the Abyss after unifying the void and awakening the Kingsoul."⟩]

/-- Witness for C5 at a concrete run whose result list is non-empty. -/
theorem search_cap_and_quality_witness :
    (search serperTrustedOne ddgNone fetchNone "Hollow Knight" "Void Heart").1.length ≤ 3 ∧
    50 < (WebDoc.mk "Void Heart" "https://hollowknight.fandom.com/wiki/Void_Heart"
      "The Void Heart is a charm obtained in the Abyss after unifying the void and awakening the Kingsoul.").content.length ∧
    is_english_content (WebDoc.mk "Void Heart"
      "https://hollowknight.fandom.com/wiki/Void_Heart"
      "The Void Heart is a charm obtained in the Abyss after unifying the void and awakening the Kingsoul.").content = true :=
  ⟨(search_cap_and_quality serperTrustedOne ddgNone fetchNone "Hollow Knight" "Void Heart").1,
   (search_cap_and_quality serperTrustedOne ddgNone fetchNone "Hollow Knight" "Void Heart").2
     _ (by decide)⟩

/-! ## Knowledge store and indexing pipeline (game_search_tool.py)

The ChromaDB client is modelled as an association list of named collections.
`collection.add` follows ChromaDB's documented semantics: records whose id
already exists in the collection are skipped (not overwritten). -/

structure PassMeta where
  source : String
  game_id : String
deriving DecidableEq

structure Entry where
  id : String
  doc : String
  meta : PassMeta
deriving DecidableEq

abbrev Collection := List Entry

abbrev Store := List (String × Collection)

/-- Passage id `f"{game_id}_{len(all_ids)}_{j}"` (game_search_tool.py, line 157). -/
def passId (gid : String) (i j : Nat) : String :=
  gid ++ "_" ++ natStr i ++ "_" ++ natStr j

/-- The three parallel accumulator lists `all_chunks`, `all_metadatas`, `all_ids`. -/
structure Batch where
  chunks : List String
  metas : List PassMeta
  ids : List String

def batchPush (b : Batch) (chunk : String) (m : PassMeta) (i : String) : Batch :=
  ⟨b.chunks ++ [chunk], b.metas ++ [m], b.ids ++ [i]⟩

/-- Inner loop `for j, chunk in enumerate(chunks)` (lines 154-157). -/
def addChunks (gid source : String) (j : Nat) (chunks : List String) (b : Batch) : Batch :=
  match chunks with
  | [] => b
  | c :: rest =>
    addChunks gid source (j + 1) rest (batchPush b c ⟨source, gid⟩ (passId gid b.ids.length j))

/-- Outer loop `for doc, source in zip(documents, sources)` (lines 152-157). -/
def buildBatchAux (gid : String) (splitFn : String → List String) :
    List (String × String) → Batch → Batch
  | [], b => b
  | (doc, source) :: rest, b =>
    buildBatchAux gid splitFn rest (addChunks gid source 0 (splitFn doc) b)

def buildBatch (gid : String) (splitFn : String → List String)
    (pairs : List (String × String)) : Batch :=
  buildBatchAux gid splitFn pairs ⟨[], [], []⟩

/-- Model of `get_or_create_collection` (lines 140-143). -/
def getOrCreate (st : Store) (name : String) : Store :=
  if (st.map Prod.fst).contains name then st else st ++ [(name, [])]

/-- Model of `collection.add` with ChromaDB's skip-existing-id semantics. -/
def addAll (c : Collection) (b : Batch) : Collection :=
  (b.ids.zip (b.chunks.zip b.metas)).foldl
    (fun c e => if c.any (fun x => x.id = e.1) then c else c ++ [⟨e.1, e.2.1, e.2.2⟩]) c

def addToCollection (st : Store) (name : String) (b : Batch) : Store :=
  st.map (fun p => if p.1 = name then (p.1, addAll p.2 b) else p)

/-- Model of `GameSearchTool.index_documents` (lines 131-166): normalize the key, get or
create the collection, chunk every document with the splitter, and add the batch
(if non-empty).  Returns the updated store and the result message. -/
def index_documents (splitFn : String → List String) (st : Store) (game_id_in : String)
    (documents sources : List String) : Store × String :=
  let game_id := normalize game_id_in
  let collection_name := "game_" ++ game_id
  let st1 := getOrCreate st collection_name
  let b := buildBatch game_id splitFn (documents.zip sources)
  let st2 := if b.chunks = [] then st1 else addToCollection st1 collection_name b
  (st2, "Indexed " ++ natStr b.chunks.length ++ " chunks for '" ++ game_id ++ "'")

/-- Passages currently stored under a collection name. -/
def passagesAt (st : Store) (name : String) : Collection :=
  ((st.find? (fun p => p.1 = name)).map Prod.snd).getD []

/-! ### Structure of the generated ids -/

/-- Ids produced by one document whose chunk count is `n`, when the running counter
starts at `start` (the enumerate index and the counter advance together). -/
def blockIds (gid : String) (start j0 n : Nat) : List String :=
  (List.range n).map (fun t => passId gid (start + t) (j0 + t))

/-- Ids produced by a whole call, given the chunk count of each document. -/
def callIds (gid : String) : List Nat → Nat → List String
  | [], _ => []
  | n :: rest, start => blockIds gid start 0 n ++ callIds gid rest (start + n)

theorem blockIds_succ (gid : String) (s j0 n : Nat) :
    blockIds gid s j0 (n + 1) = passId gid s j0 :: blockIds gid (s + 1) (j0 + 1) n := by
  rw [blockIds, List.range_succ_eq_map, List.map_cons, List.map_map]
  have hg : ((fun t => passId gid (s + t) (j0 + t)) ∘ Nat.succ)
      = (fun t => passId gid (s + 1 + t) (j0 + 1 + t)) := by
    funext t
    show passId gid (s + (t + 1)) (j0 + (t + 1)) = passId gid (s + 1 + t) (j0 + 1 + t)
    have e1 : s + (t + 1) = s + 1 + t := by omega
    have e2 : j0 + (t + 1) = j0 + 1 + t := by omega
    rw [e1, e2]
  rw [hg, Nat.add_zero, Nat.add_zero, blockIds]

theorem batchPush_ids (b : Batch) (c : String) (m : PassMeta) (i : String) :
    (batchPush b c m i).ids = b.ids ++ [i] := rfl

theorem addChunks_ids (gid source : String) :
    ∀ (chunks : List String) (j : Nat) (b : Batch),
      (addChunks gid source j chunks b).ids =
        b.ids ++ blockIds gid b.ids.length j chunks.length := by
  intro chunks
  induction chunks with
  | nil => intro j b; simp [addChunks, blockIds]
  | cons c rest ih =>
    intro j b
    show (addChunks gid source (j + 1) rest
        (batchPush b c ⟨source, gid⟩ (passId gid b.ids.length j))).ids
      = b.ids ++ blockIds gid b.ids.length j (rest.length + 1)
    rw [ih (j + 1) _, batchPush_ids, blockIds_succ]
    simp [List.append_assoc, List.length_append]

theorem buildBatchAux_ids (gid : String) (splitFn : String → List String) :
    ∀ (pairs : List (String × String)) (b : Batch),
      (buildBatchAux gid splitFn pairs b).ids =
        b.ids ++ callIds gid (pairs.map (fun p => (splitFn p.1).length)) b.ids.length := by
  intro pairs
  induction pairs with
  | nil => intro b; simp [buildBatchAux, callIds]
  | cons p rest ih =>
    intro b
    obtain ⟨doc, source⟩ := p
    show (buildBatchAux gid splitFn rest (addChunks gid source 0 (splitFn doc) b)).ids = _
    rw [ih, addChunks_ids]
    have hlen : (b.ids ++ blockIds gid b.ids.length 0 (splitFn doc).length).length
        = b.ids.length + (splitFn doc).length := by
      simp [blockIds, List.length_append]
    rw [hlen]
    simp only [List.map_cons, callIds, List.append_assoc]

theorem buildBatch_ids (gid : String) (splitFn : String → List String)
    (pairs : List (String × String)) :
    (buildBatch gid splitFn pairs).ids =
      callIds gid (pairs.map (fun p => (splitFn p.1).length)) 0 := by
  rw [buildBatch, buildBatchAux_ids]
  rfl

/-! ### Uniqueness of ids within one call -/

theorem underscore_split {a b c d : List Char} (ha : '_' ∉ a) (hc : '_' ∉ c)
    (h : a ++ '_' :: b = c ++ '_' :: d) : a = c ∧ b = d := by
  induction a generalizing c with
  | nil =>
    cases c with
    | nil => simpa using h
    | cons y cs =>
      simp only [List.nil_append, List.cons_append, List.cons.injEq] at h
      exfalso
      apply hc
      rw [h.1]
      exact List.mem_cons_self _ _
  | cons x xs ih =>
    cases c with
    | nil =>
      simp only [List.cons_append, List.nil_append, List.cons.injEq] at h
      exfalso
      apply ha
      rw [← h.1]
      exact List.mem_cons_self _ _
    | cons y cs =>
      simp only [List.cons_append, List.cons.injEq] at h
      obtain ⟨hxy, hrest⟩ := h
      have := ih (fun hm => ha (List.mem_cons_of_mem x hm))
        (fun hm => hc (List.mem_cons_of_mem y hm)) hrest
      exact ⟨by rw [hxy, this.1], this.2⟩

theorem passId_data (gid : String) (i j : Nat) :
    (passId gid i j).data = gid.data ++ '_' :: (natStrC i ++ '_' :: natStrC j) := by
  have hu : ("_" : String).data = ['_'] := by decide
  simp [passId, natStr, String.data_append, hu, List.append_assoc]

theorem passId_inj {gid : String} {i j i' j' : Nat}
    (h : passId gid i j = passId gid i' j') : i = i' ∧ j = j' := by
  have hd := congrArg String.data h
  rw [passId_data, passId_data] at hd
  have h1 := List.append_cancel_left hd
  injection h1 with _ h2
  have hs := underscore_split (natStrC_no_underscore i) (natStrC_no_underscore i') h2
  exact ⟨natStrC_inj hs.1, natStrC_inj hs.2⟩

theorem mem_blockIds {gid : String} {start j0 n : Nat} {x : String}
    (hx : x ∈ blockIds gid start j0 n) :
    ∃ t, t < n ∧ x = passId gid (start + t) (j0 + t) := by
  obtain ⟨t, ht, hfx⟩ := List.mem_map.mp hx
  exact ⟨t, List.mem_range.mp ht, hfx.symm⟩

theorem blockIds_nodup (gid : String) (start j0 n : Nat) :
    (blockIds gid start j0 n).Nodup := by
  refine List.Nodup.map ?_ (List.nodup_range n)
  intro a b hab
  have := passId_inj hab
  omega

theorem mem_callIds {gid : String} {x : String} :
    ∀ (counts : List Nat) (start : Nat), x ∈ callIds gid counts start →
      ∃ i j, start ≤ i ∧ x = passId gid i j := by
  intro counts
  induction counts with
  | nil => intro start hx; simp [callIds] at hx
  | cons n rest ih =>
    intro start hx
    rcases List.mem_append.mp hx with hx | hx
    · obtain ⟨t, _, hfx⟩ := mem_blockIds hx
      exact ⟨start + t, 0 + t, Nat.le_add_right _ _, hfx⟩
    · obtain ⟨i, j, hi, hfx⟩ := ih (start + n) hx
      exact ⟨i, j, by omega, hfx⟩

theorem callIds_nodup (gid : String) :
    ∀ (counts : List Nat) (start : Nat), (callIds gid counts start).Nodup := by
  intro counts
  induction counts with
  | nil => intro start; simp [callIds]
  | cons n rest ih =>
    intro start
    refine List.Nodup.append (blockIds_nodup gid start 0 n) (ih _) ?_
    intro x hxb hxc
    obtain ⟨t, ht, hxe⟩ := mem_blockIds hxb
    obtain ⟨i, j, hi, hxe'⟩ := mem_callIds _ _ hxc
    rw [hxe] at hxe'
    have := passId_inj hxe'
    omega

/-- Claim C6: all passage ids generated within a single `index_documents` call are
pairwise distinct, even across multiple source documents of the batch. -/
theorem index_ids_nodup (splitFn : String → List String) (game_id : String)
    (documents sources : List String) :
    (buildBatch (normalize game_id) splitFn (documents.zip sources)).ids.Nodup := by
  rw [buildBatch_ids]
  exact callIds_nodup _ _ _

/-! ### The id counter restarts on every call -/

theorem callIds_zero_mem (gid : String) :
    ∀ counts, callIds gid counts 0 ≠ [] → passId gid 0 0 ∈ callIds gid counts 0 := by
  intro counts
  induction counts with
  | nil => intro h; simp [callIds] at h
  | cons n rest ih =>
    intro h
    cases n with
    | zero =>
      have hz : callIds gid (0 :: rest) 0 = callIds gid rest 0 := by
        simp [callIds, blockIds]
      rw [hz] at h ⊢
      exact ih h
    | succ m =>
      show passId gid 0 0 ∈ blockIds gid 0 0 (m + 1) ++ callIds gid rest (0 + (m + 1))
      rw [blockIds_succ]
      exact List.mem_append_left _ (List.mem_cons_self _ _)

theorem buildBatch_head_id (splitFn : String → List String) (gid : String)
    (docs srcs : List String)
    (h : (buildBatch gid splitFn (docs.zip srcs)).ids ≠ []) :
    passId gid 0 0 ∈ (buildBatch gid splitFn (docs.zip srcs)).ids := by
  rw [buildBatch_ids] at h ⊢
  exact callIds_zero_mem gid _ h

/-- Claim C2 (amended): the id counter `len(all_ids)` is scoped to one
`index_documents` call, not to the collection; whenever two calls for the same
collection key both produce at least one chunk, they generate a colliding id
(both contain `{key}_0_0`), so cross-call id uniqueness — and with it the claimed
guarantee of additivity — fails. -/
theorem index_ids_collide_across_calls (splitFn : String → List String) (game_id : String)
    (docs1 srcs1 docs2 srcs2 : List String)
    (h1 : (buildBatch (normalize game_id) splitFn (docs1.zip srcs1)).ids ≠ [])
    (h2 : (buildBatch (normalize game_id) splitFn (docs2.zip srcs2)).ids ≠ []) :
    ∃ i, i ∈ (buildBatch (normalize game_id) splitFn (docs1.zip srcs1)).ids ∧
      i ∈ (buildBatch (normalize game_id) splitFn (docs2.zip srcs2)).ids :=
  ⟨passId (normalize game_id) 0 0,
   buildBatch_head_id splitFn _ docs1 srcs1 h1,
   buildBatch_head_id splitFn _ docs2 srcs2 h2⟩

/-- Splitter stub for documents short enough (less than 400 characters) to give a
single chunk. -/
def splitWhole : String → List String := fun s => [s]

/-- Counterexample to claim C2 as stated: two successive `index_documents` calls
for the key `g` with different single-chunk documents both generate the id
`g_0_0`, and after both calls the second document is absent from the collection
(the colliding record is skipped), so the second batch is not queryable. -/
theorem index_not_additive_counterexample :
    (buildBatch (normalize "g") splitWhole (["alpha doc"].zip ["s1"])).ids = ["g_0_0"] ∧
    (buildBatch (normalize "g") splitWhole (["beta doc"].zip ["s2"])).ids = ["g_0_0"] ∧
    passagesAt ((index_documents splitWhole
        (index_documents splitWhole [] "g" ["alpha doc"] ["s1"]).1
        "g" ["beta doc"] ["s2"]).1) "game_g"
      = [⟨"g_0_0", "alpha doc", ⟨"s1", "g"⟩⟩] :=
  ⟨by decide, by decide, by decide⟩

/-- Witness for the amended C2 at the concrete two-call run. -/
theorem index_ids_collide_across_calls_witness :
    ∃ i, i ∈ (buildBatch (normalize "g") splitWhole (["alpha doc"].zip ["s1"])).ids ∧
      i ∈ (buildBatch (normalize "g") splitWhole (["beta doc"].zip ["s2"])).ids :=
  index_ids_collide_across_calls splitWhole "g" ["alpha doc"] ["s1"] ["beta doc"] ["s2"]
    (by decide) (by decide)

/-! ### Indexing an empty document list -/

theorem passagesAt_append_new (st : Store) (cname name : String) :
    passagesAt (st ++ [(cname, [])]) name = passagesAt st name := by
  induction st with
  | nil =>
    by_cases hcn : cname = name
    · rw [List.nil_append, passagesAt, List.find?_cons_of_pos _ (by simp [hcn])]
      rfl
    · rw [List.nil_append, passagesAt, List.find?_cons_of_neg _ (by simp [hcn])]
      rfl
  | cons q rest ih =>
    by_cases hq : q.1 = name
    · rw [List.cons_append, passagesAt, passagesAt,
        List.find?_cons_of_pos _ (by simp [hq]), List.find?_cons_of_pos _ (by simp [hq])]
    · rw [List.cons_append, passagesAt, passagesAt,
        List.find?_cons_of_neg _ (by simp [hq]), List.find?_cons_of_neg _ (by simp [hq])]
      show passagesAt (rest ++ [(cname, [])]) name = passagesAt rest name
      exact ih

theorem passagesAt_getOrCreate (st : Store) (cname name : String) :
    passagesAt (getOrCreate st cname) name = passagesAt st name := by
  rw [getOrCreate]
  split
  · rfl
  · exact passagesAt_append_new st cname name

/-- Claim C9: `index_documents` with an empty document list reports `Indexed 0
chunks` (the written count, zero) and leaves the passages of every collection
unchanged. -/
theorem index_empty_documents (splitFn : String → List String) (st : Store)
    (game_id : String) (sources : List String) :
    (index_documents splitFn st game_id [] sources).2
      = "Indexed " ++ natStr 0 ++ " chunks for '" ++ normalize game_id ++ "'" ∧
    natStr 0 = "0" ∧
    ∀ name, passagesAt (index_documents splitFn st game_id [] sources).1 name
      = passagesAt st name := by
  refine ⟨rfl, by decide, ?_⟩
  intro name
  show passagesAt (getOrCreate st ("game_" ++ normalize game_id)) name = passagesAt st name
  exact passagesAt_getOrCreate st _ name

/-! ## Retrieval router `GameSearchTool._run` (game_search_tool.py, lines 44-129)

The ChromaDB similarity query (embedding-dependent) is an oracle `QueryFn` keyed
by the current store, the collection name and the query text; it may fail, which
models an exception raised while querying.  The query is issued with
`n_results=5`, so the oracle's hit list is at most 5 long — this is carried as a
hypothesis where the claim needs it.  The web aggregator and the text splitter
are oracles as well (`WebSearchTool.search` and `index_documents` never raise:
both catch internally). -/

/-- One similarity hit: an aligned (document, metadata source, distance) triple. -/
structure Hit where
  doc : String
  source : Option String
  dist : ℚ
deriving DecidableEq

abbrev QueryFn := Store → String → String → Except String (List Hit)

/-- Model of the `perform_search` helper (lines 56-68): `get_collection` raises when the
collection does not exist, then the query oracle runs. -/
def performSearch (queryFn : QueryFn) (s : Store) (name qtext : String) :
    Except String (List Hit) :=
  if (s.map Prod.fst).contains name then queryFn s name qtext
  else .error ("Collection " ++ name ++ " does not exist.")

/-- Local-hit formatting loop (lines 82-86). -/
def formatLocal (hits : List Hit) : String :=
  String.intercalate "\n---\n" (hits.enum.map (fun p =>
    "**[Local Source " ++ natStr (p.1 + 1) ++ ": " ++ p.2.source.getD "Local Cache"
      ++ "]**\n" ++ p.2.doc ++ "\n"))

/-- Post-index formatting loop (lines 118-123). -/
def formatWeb (hits : List Hit) : String :=
  String.intercalate "\n---\n" (hits.enum.map (fun p =>
    "**[Web Index " ++ natStr (p.1 + 1) ++ ": " ++ p.2.source.getD "Web Index"
      ++ "]**\n" ++ p.2.doc ++ "\n"))

/-- Message returned when the web search comes back empty (lines 97-101). -/
def noLocalMsg (normalized : String) (existing : List String) : String :=
  "No local documentation indexed for '" ++ normalized
    ++ "' and web search returned no results. Available games: "
    ++ String.intercalate ", "
      ((existing.filter (fun c => startsWith "game_" c)).map
        (fun c => replaceSub "game_" "" c))
    ++ ". "

/-- Web-acquisition path of `_run` (lines 88-123): web search, indexing, re-query,
formatting.  The second and third components record whether the web aggregator and
the indexing pipeline were invoked. -/
def webPath (queryFn : QueryFn) (webFn : String → String → List WebDoc)
    (splitFn : String → List String) (st : Store)
    (normalized collection_name game_id query : String) :
    Except String (String × Store) × Bool × Bool :=
  let web_results := webFn game_id query
  if web_results = [] then
    (.ok (noLocalMsg normalized (st.map Prod.fst), st), true, false)
  else
    let docs := web_results.map (fun r => r.content)
    let srcs := web_results.map (fun r => r.href)
    let st' := (index_documents splitFn st normalized docs srcs).1
    match performSearch queryFn st' collection_name query with
    | .error e => (.error e, true, true)
    | .ok hits2 =>
      if hits2 = [] then
        (.ok ("Indexed new content but search yielded no results. This is unexpected.",
          st'), true, true)
      else
        (.ok (formatWeb hits2, st'), true, true)

/-- Body of `GameSearchTool._run` inside the catch-all `try` (lines 46-123).
Returns the outcome (or the pending exception) together with the final store and
the two effect flags (web search invoked, indexing invoked). -/
def runE (queryFn : QueryFn) (webFn : String → String → List WebDoc)
    (splitFn : String → List String) (st : Store) (game_name query : String) :
    Except String (String × Store) × Bool × Bool :=
  let game_id := game_name
  let normalized := normalize game_id
  let collection_name := "game_" ++ normalized
  let existing := st.map Prod.fst
  if existing.contains collection_name then
    match performSearch queryFn st collection_name query with
    | .error e => (.error e, false, false)
    | .ok hits =>
      let best : ℚ := match hits with | [] => 1 | h :: _ => h.dist
      if (0.45 : ℚ) < best then
        webPath queryFn webFn splitFn st normalized collection_name game_id query
      else
        match hits with
        | [] => webPath queryFn webFn splitFn st normalized collection_name game_id query
        | _ :: _ => (.ok (formatLocal hits, st), false, false)
  else
    webPath queryFn webFn splitFn st normalized collection_name game_id query

/-- Message produced by the catch-all handler (line 129). -/
def errMsg (e : String) : String :=
  "Error searching local docs: " ++ e ++ ". Use 'Web Search for Game Information' instead."

/-- Model of `GameSearchTool._run` as seen by the caller: the catch-all handler converts
any pending exception into the explanatory message. -/
def runStr (queryFn : QueryFn) (webFn : String → String → List WebDoc)
    (splitFn : String → List String) (st : Store) (game_name query : String) : String :=
  match (runE queryFn webFn splitFn st game_name query).1 with
  | .ok r => r.1
  | .error e => errMsg e

inductive Provenance where
  | Local
  | Web
  | Unknown
deriving DecidableEq

/-- Provenance derivation of `main.determine_provider_and_search` (main.py,
lines 26-32): sniff the formatted result for the two markers. -/
def provenanceOf (s : String) : Provenance :=
  if containsSub "Web Index" s then .Web
  else if containsSub "Local Source" s then .Local
  else .Unknown

theorem webPath_webCalled (queryFn : QueryFn) (webFn : String → String → List WebDoc)
    (splitFn : String → List String) (st : Store)
    (normalized collection_name game_id query : String) :
    (webPath queryFn webFn splitFn st normalized collection_name game_id query).2.1
      = true := by
  rw [webPath]
  split
  · rfl
  · dsimp only
    split
    · rfl
    · split <;> rfl

theorem runE_local_hit (queryFn : QueryFn) (webFn : String → String → List WebDoc)
    (splitFn : String → List String) (st : Store) (game_name query : String)
    (h : Hit) (t : List Hit)
    (hcol : (st.map Prod.fst).contains ("game_" ++ normalize game_name) = true)
    (hq : queryFn st ("game_" ++ normalize game_name) query = .ok (h :: t))
    (hle : h.dist ≤ 0.45) :
    runE queryFn webFn splitFn st game_name query
      = (.ok (formatLocal (h :: t), st), false, false) := by
  simp only [runE, performSearch, hcol, if_true, hq]
  rw [if_neg (not_lt.mpr hle)]

theorem runE_miss_highdist (queryFn : QueryFn) (webFn : String → String → List WebDoc)
    (splitFn : String → List String) (st : Store) (game_name query : String)
    (h : Hit) (t : List Hit)
    (hcol : (st.map Prod.fst).contains ("game_" ++ normalize game_name) = true)
    (hq : queryFn st ("game_" ++ normalize game_name) query = .ok (h :: t))
    (hgt : (0.45 : ℚ) < h.dist) :
    (runE queryFn webFn splitFn st game_name query).2.1 = true := by
  simp only [runE, performSearch, hcol, if_true, hq]
  rw [if_pos hgt]
  exact webPath_webCalled queryFn webFn splitFn st _ _ _ query

theorem runE_miss_noresults (queryFn : QueryFn) (webFn : String → String → List WebDoc)
    (splitFn : String → List String) (st : Store) (game_name query : String)
    (hcol : (st.map Prod.fst).contains ("game_" ++ normalize game_name) = true)
    (hq : queryFn st ("game_" ++ normalize game_name) query = .ok []) :
    (runE queryFn webFn splitFn st game_name query).2.1 = true := by
  simp only [runE, performSearch, hcol, if_true, hq]
  rw [if_pos (by norm_num : (0.45 : ℚ) < 1)]
  exact webPath_webCalled queryFn webFn splitFn st _ _ _ query

theorem runE_no_collection (queryFn : QueryFn) (webFn : String → String → List WebDoc)
    (splitFn : String → List String) (st : Store) (game_name query : String)
    (hcol : (st.map Prod.fst).contains ("game_" ++ normalize game_name) = false) :
    (runE queryFn webFn splitFn st game_name query).2.1 = true := by
  simp only [runE, hcol, Bool.false_eq_true, if_false]
  exact webPath_webCalled queryFn webFn splitFn st _ _ _ query

/-- Claim C1: with an existing collection and a non-empty sorted hit list, a best
distance at most 0.45 yields the Local-formatted passages (at most 5, as queried)
without consulting the web; a best distance above 0.45, an empty result, or a
missing collection all invoke the web-acquisition path. -/
theorem resolve_relevance_decision (queryFn : QueryFn)
    (webFn : String → String → List WebDoc) (splitFn : String → List String)
    (st : Store) (game_name query : String) :
    ((st.map Prod.fst).contains ("game_" ++ normalize game_name) = true →
      ∀ (h : Hit) (t : List Hit),
        queryFn st ("game_" ++ normalize game_name) query = .ok (h :: t) →
        (∀ x ∈ h :: t, h.dist ≤ x.dist) →
        (h :: t).length ≤ 5 →
        ((h.dist ≤ 0.45 →
          runE queryFn webFn splitFn st game_name query
            = (.ok (formatLocal (h :: t), st), false, false)) ∧
         ((0.45 : ℚ) < h.dist →
          (runE queryFn webFn splitFn st game_name query).2.1 = true))) ∧
    ((st.map Prod.fst).contains ("game_" ++ normalize game_name) = true →
      queryFn st ("game_" ++ normalize game_name) query = .ok [] →
      (runE queryFn webFn splitFn st game_name query).2.1 = true) ∧
    ((st.map Prod.fst).contains ("game_" ++ normalize game_name) = false →
      (runE queryFn webFn splitFn st game_name query).2.1 = true) := by
  refine ⟨?_, ?_, ?_⟩
  · intro hcol h t hq _hmin _hlen
    exact ⟨fun hle => runE_local_hit queryFn webFn splitFn st game_name query h t hcol hq hle,
      fun hgt => runE_miss_highdist queryFn webFn splitFn st game_name query h t hcol hq hgt⟩
  · intro hcol hq
    exact runE_miss_noresults queryFn webFn splitFn st game_name query hcol hq
  · intro hcol
    exact runE_no_collection queryFn webFn splitFn st game_name query hcol

/-- Query oracle stub returning one close hit. -/
def queryOneHit : QueryFn :=
  fun _ _ _ => .ok [⟨"Void Heart is a charm.", some "hollowknight.fandom.com", 1/10⟩]

/-- Web aggregator stub returning no documents. -/
def webNone : String → String → List WebDoc := fun _ _ => []

/-- Store stub holding one (empty) collection for Hollow Knight. -/
def stHK : Store := [("game_hollow_knight", [])]

/-- Witness for C1 at a concrete local hit (distance 1/10 at most 0.45). -/
theorem resolve_relevance_decision_witness :
    runE queryOneHit webNone splitWhole stHK "Hollow Knight" "Void Heart"
      = (.ok (formatLocal
          [⟨"Void Heart is a charm.", some "hollowknight.fandom.com", 1/10⟩], stHK),
         false, false) :=
  (((resolve_relevance_decision queryOneHit webNone splitWhole stHK
      "Hollow Knight" "Void Heart").1
    (by decide) _ [] rfl
    (by intro x hx; rw [List.mem_singleton] at hx; rw [hx])
    (by norm_num)).1) (by norm_num)

/-- Claim C10: on a local hit (existing collection, non-empty sorted results, best
distance at most 0.45) the store is returned unchanged and neither the web
aggregator nor the indexing pipeline is invoked. -/
theorem resolve_local_hit_preserves_store (queryFn : QueryFn)
    (webFn : String → String → List WebDoc) (splitFn : String → List String)
    (st : Store) (game_name query : String) (h : Hit) (t : List Hit)
    (hcol : (st.map Prod.fst).contains ("game_" ++ normalize game_name) = true)
    (hq : queryFn st ("game_" ++ normalize game_name) query = .ok (h :: t))
    (_hmin : ∀ x ∈ h :: t, h.dist ≤ x.dist)
    (hle : h.dist ≤ 0.45) :
    ∃ out, runE queryFn webFn splitFn st game_name query
      = (.ok (out, st), false, false) :=
  ⟨formatLocal (h :: t),
   runE_local_hit queryFn webFn splitFn st game_name query h t hcol hq hle⟩

/-- Witness for C10 at the same concrete local hit. -/
theorem resolve_local_hit_preserves_store_witness :
    ∃ out, runE queryOneHit webNone splitWhole stHK "Hollow Knight" "Void Heart"
      = (.ok (out, stHK), false, false) :=
  resolve_local_hit_preserves_store queryOneHit webNone splitWhole stHK
    "Hollow Knight" "Void Heart" _ []
    (by decide) rfl
    (by intro x hx; rw [List.mem_singleton] at hx; rw [hx])
    (by norm_num)

/-- Claim C3: `_run` is a total function of its oracles (it never raises), and
whenever its body ends in a pending exception `e`, the caller receives the
explanatory message built from `e`, which the provenance sniffer classifies as
Unknown (provided the exception text does not itself contain a provenance
marker). -/
theorem resolve_catches_exceptions (queryFn : QueryFn)
    (webFn : String → String → List WebDoc) (splitFn : String → List String)
    (st : Store) (game_name query e : String)
    (herr : (runE queryFn webFn splitFn st game_name query).1 = .error e)
    (hw : containsSub "Web Index" (errMsg e) = false)
    (hl : containsSub "Local Source" (errMsg e) = false) :
    runStr queryFn webFn splitFn st game_name query = errMsg e ∧
    provenanceOf (runStr queryFn webFn splitFn st game_name query) = .Unknown := by
  have h1 : runStr queryFn webFn splitFn st game_name query = errMsg e := by
    rw [runStr, herr]
  refine ⟨h1, ?_⟩
  rw [h1]
  simp only [provenanceOf, hw, hl, Bool.false_eq_true, if_false]

/-- Query oracle stub that always raises. -/
def queryErr : QueryFn := fun _ _ _ => .error "boom"

/-- Witness for C3: a raising query oracle is converted into the error message,
classified Unknown. -/
theorem resolve_catches_exceptions_witness :
    runStr queryErr webNone splitWhole stHK "Hollow Knight" "Void Heart"
      = errMsg "boom" ∧
    provenanceOf (runStr queryErr webNone splitWhole stHK "Hollow Knight" "Void Heart")
      = .Unknown :=
  resolve_catches_exceptions queryErr webNone splitWhole stHK
    "Hollow Knight" "Void Heart" "boom" rfl (by decide) (by decide)

end RpgAssist
